import Mathlib

/-!
Verification of the validated, error-classified repository client of the
sharepoint-ai-assistant repository.

Python strings are modelled as `List Char` (`PyStr`), Python exceptions as the
`PyExc` sum, and the loosely typed property maps returned by the remote store
as association lists of `PyVal` values (scalar values, or the flat objects the
store uses for user fields).  `pandas.DataFrame(results)` is modelled as the
row list itself.  The logging collaborator (`log_performance`,
`log_function_call`) is out of scope per the specification and is modelled as
having no effect on data or control flow; its exit hook never suppresses an
exception.  Every definition below is translated from
`src/utils/validation.py`, `src/clients/sharepoint_client.py`,
`src/core/constants.py` and `src/core/exceptions.py`.
-/

namespace SP

/-- Python `str` as a character list. -/
abbrev PyStr := List Char

/-- The characters Python `str.strip()` removes from both ends (ASCII range). -/
def isPySpace (c : Char) : Bool :=
  c = ' ' || c = '\t' || c = '\n' || c = '\x0d' || c = '\x0b' || c = '\x0c'

/-- Python `str.strip()`. -/
def pyStrip (s : PyStr) : PyStr :=
  ((s.dropWhile isPySpace).reverse.dropWhile isPySpace).reverse

/-- Python `str.lower()` (ASCII domain). -/
def pyLower (s : PyStr) : PyStr := s.map Char.toLower

/-- Python `str.upper()` (ASCII domain). -/
def pyUpper (s : PyStr) : PyStr := s.map Char.toUpper

/-- Python substring test `needle in hay` for strings: some contiguous run of
`hay` equals `needle` (the empty needle always matches). -/
def pySubstr (needle : PyStr) : PyStr → Bool
  | [] => needle.isEmpty
  | c :: rest => needle.isPrefixOf (c :: rest) || pySubstr needle rest

/-- The exceptions the client code raises or handles, tagged by their Python
class: `ClientRequestException` from the transport library, the typed
errors of `src/core/exceptions.py`, and a catch-all for any other Python
exception. -/
inductive PyExc where
  | clientRequest (msg : PyStr)
  | spConnection (msg : PyStr)
  | spAuth (msg : PyStr)
  | spNotFound (msg : PyStr)
  | spTimeout (msg : PyStr)
  | fileNotFound (msg : PyStr)
  | fileDownload (msg : PyStr)
  | validationError (msg : PyStr)
  | securityError (msg : PyStr)
  | pyError (msg : PyStr)
deriving DecidableEq, Repr

/-- A scalar value of a remote field map. -/
inductive PyPrim where
  | pStr (s : PyStr)
  | pInt (n : Int)
  | pNone
deriving DecidableEq, Repr

/-- A value of a remote field map: a scalar, Python `None`, or a flat object
such as the user field `{"Title": "Jane"}`.  The remote store returns flat
objects for user and lookup fields, so one level of nesting models the
domain. -/
inductive PyVal where
  | vStr (s : PyStr)
  | vInt (n : Int)
  | vNone
  | vDict (entries : List (PyStr × PyPrim))
deriving DecidableEq, Repr

/-- Promote a scalar read out of a nested object to a field value. -/
def PyPrim.toVal : PyPrim → PyVal
  | .pStr s => .vStr s
  | .pInt n => .vInt n
  | .pNone => .vNone

/-- Decimal rendering of an integer, as Python `str(n)`. -/
def intToStr (n : Int) : PyStr :=
  if n < 0 then '-' :: Nat.toDigits 10 n.natAbs else Nat.toDigits 10 n.toNat

/-- Python `repr` of a scalar (string escaping is not modelled; the store
fields contain no quote characters). -/
def pyReprPrim : PyPrim → PyStr
  | .pStr s => Char.ofNat 39 :: s ++ [Char.ofNat 39]
  | .pInt n => intToStr n
  | .pNone => "None".data

/-- Python `str(v)` on a field value; dicts render as their Python repr. -/
def pyStrOf : PyVal → PyStr
  | .vStr s => s
  | .vInt n => intToStr n
  | .vNone => "None".data
  | .vDict m =>
    Char.ofNat 123 :: (List.intercalate (", ".data)
      (m.map fun kv =>
        pyReprPrim (.pStr kv.1) ++ ": ".data ++ pyReprPrim kv.2)) ++
      [Char.ofNat 125]

/-- A raw field map of one remote item (`dict(item.properties)`). -/
abbrev ItemData := List (PyStr × PyVal)

/-- Python `d.get(key, default)` on a field map. -/
def itemGet (item : ItemData) (key : PyStr) (dflt : PyVal) : PyVal :=
  (List.lookup key item).getD dflt

/- ---------------------------------------------------------------------
   Constants (src/core/constants.py)
--------------------------------------------------------------------- -/

/-- Model of `SecurityConstants.MAX_URL_LENGTH`. -/
def MAX_URL_LENGTH : Nat := 2048

/-- Model of `SecurityConstants.MAX_QUERY_LENGTH`. -/
def MAX_QUERY_LENGTH : Nat := 500

/-- Model of `SecurityConstants.MAX_FILENAME_LENGTH`. -/
def MAX_FILENAME_LENGTH : Nat := 255

/-- Model of `SharePointConstants.MAX_SEARCH_RESULTS`. -/
def MAX_SEARCH_RESULTS : Nat := 100

/-- Model of `SharePointConstants.DOCUMENT_LIBRARY_TEMPLATE`. -/
def DOCUMENT_LIBRARY_TEMPLATE : Int := 101

/- ---------------------------------------------------------------------
   Validation layer (src/utils/validation.py)
--------------------------------------------------------------------- -/

/-- The `dangerous_chars` blacklist of `validate_search_query`:
less-than, greater-than, double quote, single quote, ampersand,
semicolon, pipe and backtick, in source order. -/
def dangerousChars : PyStr :=
  ['<', '>', '"', Char.ofNat 39, '&', ';', '|', Char.ofNat 96]

/-- The `sql_keywords` blacklist of `validate_search_query`, in source order. -/
def sqlKeywords : List PyStr :=
  [("SELECT").data, ("INSERT").data, ("UPDATE").data, ("DELETE").data,
   ("DROP").data, ("UNION").data, ("EXEC").data]

/-- Model of `validate_search_query`: emptiness check on the raw input, then strip,
length check, character blacklist, keyword blacklist (case-insensitive). -/
def validateSearchQuery (query : PyStr) : Except PyExc PyStr :=
  if query = [] then
    .error (.validationError ("Search query cannot be empty".data))
  else if MAX_QUERY_LENGTH < (pyStrip query).length then
    .error (.validationError ("Query too long".data))
  else
    match dangerousChars.find? (fun c => (pyStrip query).contains c) with
    | some c =>
      .error (.securityError
        ("Query contains potentially dangerous character: ".data ++ [c]))
    | none =>
      match sqlKeywords.find?
          (fun kw => pySubstr kw (pyUpper (pyStrip query))) with
      | some kw =>
        .error (.securityError
          ("Query contains potentially dangerous keyword: ".data ++ kw))
      | none => .ok (pyStrip query)

/-- The `invalid_chars` blacklist shared by `validate_filename` and
`validate_library_name`, in source order. -/
def invalidNameChars : PyStr :=
  ['<', '>', ':', '"', '|', '?', '*', '\\', '/']

/-- The reserved Windows device names of `validate_filename`. -/
def reservedNames : List PyStr :=
  [("CON").data, ("PRN").data, ("AUX").data, ("NUL").data,
   ("COM1").data, ("COM2").data, ("COM3").data, ("COM4").data, ("COM5").data,
   ("COM6").data, ("COM7").data, ("COM8").data, ("COM9").data,
   ("LPT1").data, ("LPT2").data, ("LPT3").data, ("LPT4").data,
   ("LPT5").data, ("LPT6").data, ("LPT7").data, ("LPT8").data, ("LPT9").data]

/-- Model of `os.path.splitext` on a name containing no path separator: split at the
last dot unless every character before it is a dot. -/
def splitext (p : PyStr) : PyStr × PyStr :=
  match (p.reverse.findIdx? (· = '.')) with
  | none => (p, [])
  | some revIdx =>
    let i := p.length - 1 - revIdx
    if (p.take i).all (· = '.') then (p, [])
    else (p.take i, p.drop i)

/-- Model of `validate_filename`. -/
def validateFilename (filename : PyStr) : Except PyExc PyStr :=
  if filename = [] then
    .error (.validationError ("Filename cannot be empty".data))
  else if MAX_FILENAME_LENGTH < (pyStrip filename).length then
    .error (.validationError ("Filename too long".data))
  else
    match invalidNameChars.find? (fun c => (pyStrip filename).contains c) with
    | some c =>
      .error (.validationError
        ("Filename contains invalid character: ".data ++ [c]))
    | none =>
      if reservedNames.contains (pyUpper (splitext (pyStrip filename)).1) then
        .error (.validationError
          ("Filename uses reserved name: ".data ++
            pyUpper (splitext (pyStrip filename)).1))
      else .ok (pyStrip filename)

/-- Model of `validate_library_name` (membership in `DEFAULT_LIBRARIES` only logs a
warning and is not modelled). -/
def validateLibraryName (libraryName : PyStr) : Except PyExc PyStr :=
  if libraryName = [] then
    .error (.validationError ("Library name cannot be empty".data))
  else if 100 < (pyStrip libraryName).length then
    .error (.validationError ("Library name too long".data))
  else
    match invalidNameChars.find?
        (fun c => (pyStrip libraryName).contains c) with
    | some c =>
      .error (.validationError
        ("Library name contains invalid character: ".data ++ [c]))
    | none => .ok (pyStrip libraryName)

/-- Model of `validate_credentials`: emptiness checks on the raw inputs, then both are
stripped; the GUID-shape check only logs a warning; the stripped secret must
have at least 10 characters. -/
def validateCredentials (clientId clientSecret : PyStr) :
    Except PyExc (PyStr × PyStr) :=
  if clientId = [] then
    .error (.validationError ("Client ID cannot be empty".data))
  else if clientSecret = [] then
    .error (.validationError ("Client secret cannot be empty".data))
  else if (pyStrip clientSecret).length < 10 then
    .error (.validationError ("Client secret appears too short".data))
  else .ok (pyStrip clientId, pyStrip clientSecret)

/- ---------------------------------------------------------------------
   URL model: Python urllib.parse.urlparse, as used by validate_url
--------------------------------------------------------------------- -/

/-- Split a list at the first occurrence of `c`: `some (before, after)` with
the separator removed, or `none` when `c` does not occur. -/
def splitAtFirst (c : Char) : PyStr → Option (PyStr × PyStr)
  | [] => none
  | x :: xs =>
    if x = c then some ([], xs)
    else match splitAtFirst c xs with
      | some (a, b) => some (x :: a, b)
      | none => none

/-- The characters urllib allows in a scheme after the leading letter. -/
def isSchemeChar (c : Char) : Bool :=
  c.isAlphanum || c = '+' || c = '-' || c = '.'

/-- A character that ends the authority component of a URL. -/
def isNetlocEnd (c : Char) : Bool := c = '/' || c = '?' || c = '#'

/-- The result of `urlparse`: scheme, authority, path, path parameters,
query and fragment. -/
structure UrlParts where
  scheme : PyStr
  netloc : PyStr
  path : PyStr
  params : PyStr
  query : PyStr
  fragment : PyStr
deriving DecidableEq, Repr

/-- Split off the fragment at the first `#`. -/
def splitFragment (x : PyStr) : PyStr × PyStr :=
  match splitAtFirst '#' x with
  | some (a, b) => (a, b)
  | none => (x, [])

/-- Split off the query at the first `?`. -/
def splitQuery (x : PyStr) : PyStr × PyStr :=
  match splitAtFirst '?' x with
  | some (a, b) => (a, b)
  | none => (x, [])

/-- Model of `urllib.parse.urlsplit`: detect a scheme before the first colon, then the
`//`-introduced authority up to the first `/`, `?` or `#`, then split the
fragment at the first `#` and the query at the first `?`. -/
def urlsplitCore (u : PyStr) : UrlParts :=
  let (scheme, rest) :=
    match splitAtFirst ':' u with
    | some (pre, post) =>
      if pre ≠ [] ∧ (pre.headD ' ').isAlpha ∧ pre.all isSchemeChar then
        (pyLower pre, post)
      else ([], u)
    | none => ([], u)
  let (netloc, rest) :=
    if rest.take 2 = ['/', '/'] then
      ((rest.drop 2).takeWhile (fun c => !isNetlocEnd c),
       (rest.drop 2).dropWhile (fun c => !isNetlocEnd c))
    else ([], rest)
  let (rest, fragment) := splitFragment rest
  let (path, query) := splitQuery rest
  ⟨scheme, netloc, path, [], query, fragment⟩

/-- The schemes for which `urlparse` splits `;parameters` off the path. -/
def usesParams : List PyStr :=
  [[], ("ftp").data, ("hdl").data, ("prospero").data, ("http").data,
   ("imap").data, ("https").data, ("shttp").data, ("rtsp").data,
   ("rtspu").data, ("sip").data, ("sips").data, ("mms").data,
   ("sftp").data, ("tel").data]

/-- Model of `urllib.parse._splitparams`: split the path at the first `;` occurring in
its final `/`-separated segment. -/
def splitParams (path : PyStr) : PyStr × PyStr :=
  if path.contains '/' then
    let after := (path.reverse.takeWhile (· ≠ '/')).reverse
    let before := path.take (path.length - after.length)
    match splitAtFirst ';' after with
    | some (a, b) => (before ++ a, b)
    | none => (path, [])
  else
    match splitAtFirst ';' path with
    | some (a, b) => (a, b)
    | none => (path, [])

/-- Model of `urllib.parse.urlparse`: `urlsplit`, then parameter splitting for the
schemes that use it. -/
def pyUrlparse (u : PyStr) : UrlParts :=
  if usesParams.contains (urlsplitCore u).scheme ∧
      (urlsplitCore u).path.contains ';' then
    { urlsplitCore u with
      path := (splitParams (urlsplitCore u).path).1,
      params := (splitParams (urlsplitCore u).path).2 }
  else urlsplitCore u

/-- The `hostname` property of a parse result: the part of the authority after
the last `@`, up to `:` (or the bracketed form for IPv6 literals),
lowercased. -/
def hostnameOf (netloc : PyStr) : PyStr :=
  let hostinfo := (netloc.reverse.takeWhile (· ≠ '@')).reverse
  let host :=
    if hostinfo.contains '[' then
      ((hostinfo.dropWhile (· ≠ '[')).drop 1).takeWhile (· ≠ ']')
    else hostinfo.takeWhile (· ≠ ':')
  pyLower host

/-- Model of `validate_url`: emptiness and length checks on the raw input, parse the
stripped input, require an http or https scheme and a non-empty hostname,
optionally reject localhost, and reconstruct `scheme://netloc + path` plus
the query when one is present (fragment, and path parameters, dropped).
Failure messages differ from the source (whose inner `except` re-wraps its
own scheme and hostname errors), but the raised class is `ValidationError`
in all failure branches, which is what is modelled. -/
def validateUrl (url : PyStr) (allowLocalhost : Bool) : Except PyExc PyStr :=
  if url = [] then
    .error (.validationError ("URL cannot be empty".data))
  else if MAX_URL_LENGTH < url.length then
    .error (.validationError ("URL too long".data))
  else if ¬((pyUrlparse (pyStrip url)).scheme = ("http").data ∨
      (pyUrlparse (pyStrip url)).scheme = ("https").data) then
    .error (.validationError ("URL must use http or https protocol".data))
  else if hostnameOf (pyUrlparse (pyStrip url)).netloc = [] then
    .error (.validationError ("URL must have a valid hostname".data))
  else if ¬allowLocalhost ∧
      (hostnameOf (pyUrlparse (pyStrip url)).netloc = ("localhost").data ∨
       hostnameOf (pyUrlparse (pyStrip url)).netloc = ("127.0.0.1").data ∨
       hostnameOf (pyUrlparse (pyStrip url)).netloc = ("::1").data) then
    .error (.validationError ("Localhost URLs are not allowed".data))
  else
    .ok ((pyUrlparse (pyStrip url)).scheme ++ ("://").data ++
         (pyUrlparse (pyStrip url)).netloc ++
         (pyUrlparse (pyStrip url)).path ++
         (if (pyUrlparse (pyStrip url)).query ≠ [] then
            '?' :: (pyUrlparse (pyStrip url)).query
          else []))

/-- The clean URL `validate_url` rebuilds from the parse of the stripped
input. -/
def reconUrl (u : PyStr) : PyStr :=
  (pyUrlparse (pyStrip u)).scheme ++ ("://").data ++
    (pyUrlparse (pyStrip u)).netloc ++ (pyUrlparse (pyStrip u)).path ++
    (if (pyUrlparse (pyStrip u)).query ≠ [] then
       '?' :: (pyUrlparse (pyStrip u)).query
     else [])

/-- The valid absolute http/https URLs of the modelled domain: written with a
lowercase `http://` or `https://` prefix, within the length bound, free of
whitespace and control characters and of bracketed IPv6 authorities, and
parsing to a non-empty hostname. -/
def validHttpUrl (u : PyStr) : Bool :=
  (("http://").data.isPrefixOf u || ("https://").data.isPrefixOf u) &&
  u.length ≤ MAX_URL_LENGTH &&
  u.all (fun c => !isPySpace c && c ≠ '[' && c ≠ ']' && 31 < c.toNat) &&
  hostnameOf (pyUrlparse u).netloc ≠ []

/- ---------------------------------------------------------------------
   Date model: datetime.fromisoformat / strftime as used by the shaper
--------------------------------------------------------------------- -/

/-- Numeric value of an ASCII digit. -/
def digitVal (c : Char) : Nat := c.toNat - 48

/-- Read two decimal digits. -/
def twoDigits? : PyStr → Option (Nat × PyStr)
  | a :: b :: r =>
    if a.isDigit && b.isDigit then some (10 * digitVal a + digitVal b, r)
    else none
  | _ => none

/-- Parse `HH[:MM[:SS[.ffffff]]]` and return the remaining input. -/
def parseHMS (t : PyStr) : Option PyStr :=
  match twoDigits? t with
  | none => none
  | some (hh, r) =>
    if 24 ≤ hh then none
    else
      match r with
      | ':' :: r2 =>
        match twoDigits? r2 with
        | none => none
        | some (mm, r3) =>
          if 60 ≤ mm then none
          else
            match r3 with
            | ':' :: r4 =>
              match twoDigits? r4 with
              | none => none
              | some (ss, r5) =>
                if 60 ≤ ss then none
                else
                  match r5 with
                  | '.' :: r6 =>
                    let frac := r6.takeWhile Char.isDigit
                    if frac.length = 0 ∨ 6 < frac.length then none
                    else some (r6.drop frac.length)
                  | _ => some r5
            | _ => some r3
      | _ => some r

/-- An optional trailing UTC offset `±HH:MM[:SS]`. -/
def validOffset : PyStr → Bool
  | [] => true
  | c :: t =>
    (c = '+' || c = '-') &&
    (match parseHMS t with
     | some [] => true
     | _ => false)

/-- The time-of-day part following the date: empty, or a single separator
character followed by a clock time and an optional offset. -/
def validTimePart : PyStr → Bool
  | [] => true
  | _ :: t =>
    match parseHMS t with
    | none => false
    | some rest => validOffset rest

/-- Gregorian leap years, as `datetime` checks them. -/
def isLeapYear (y : Nat) : Bool := (y % 4 = 0 && y % 100 ≠ 0) || y % 400 = 0

/-- Days in a month, as `datetime` checks them. -/
def daysInMonth (y m : Nat) : Nat :=
  if m = 2 then (if isLeapYear y then 29 else 28)
  else if m = 4 ∨ m = 6 ∨ m = 9 ∨ m = 11 then 30
  else 31

/-- Model of `datetime.fromisoformat` followed by `strftime("%Y-%m-%d")`, modelled on
the ISO-8601 timestamps the remote store emits: a valid zero-padded
`YYYY-MM-DD` date, optionally followed by a separator, a clock time and a
UTC offset.  On success the formatted result is exactly the ten date
characters of the input. -/
def isoToDate? (s : PyStr) : Option PyStr :=
  match s with
  | y1 :: y2 :: y3 :: y4 :: c1 :: m1 :: m2 :: c2 :: d1 :: d2 :: rest =>
    if ([y1, y2, y3, y4, m1, m2, d1, d2].all Char.isDigit) &&
        c1 = '-' && c2 = '-' then
      let year := 1000 * digitVal y1 + 100 * digitVal y2 +
        10 * digitVal y3 + digitVal y4
      let month := 10 * digitVal m1 + digitVal m2
      let day := 10 * digitVal d1 + digitVal d2
      if (1 ≤ year && 1 ≤ month && month ≤ 12 && 1 ≤ day &&
          day ≤ daysInMonth year month) && validTimePart rest then
        some (s.take 10)
      else none
    else none
  | _ => none

/-- Python `s.replace(c, rep)` for a one-character pattern. -/
def pyReplaceChar (c : Char) (rep : PyStr) : PyStr → PyStr
  | [] => []
  | x :: xs =>
    if x = c then rep ++ pyReplaceChar c rep xs
    else x :: pyReplaceChar c rep xs

/- ---------------------------------------------------------------------
   Result shaper (_clean_list_item_data) and query parser
--------------------------------------------------------------------- -/

/-- The `display_fields` table of `_clean_list_item_data`: internal field
name to display label, in source order. -/
def displayFields : List (PyStr × PyStr) :=
  [(("Title").data, ("Title").data),
   (("AssignedTo").data, ("Assigned To").data),
   (("Status").data, ("Status").data),
   (("DueDate").data, ("Due Date").data),
   (("Priority").data, ("Priority").data),
   (("Category").data, ("Category").data),
   (("Created").data, ("Created").data),
   (("Modified").data, ("Modified").data),
   (("Author").data, ("Author").data)]

/-- Per-value cleanup of `_clean_list_item_data`: a dict reduces to its
`Title` entry when present and to its stringification otherwise; a string
that contains `T` and is longer than ten characters is reformatted to
`YYYY-MM-DD` (after `Z` is rewritten to `+00:00`), falling back to the raw
string when the parse fails; every other value is stringified.  The `None`
arm is unreachable: callers skip `None`-valued fields. -/
def cleanFieldValue (v : PyVal) : PyVal :=
  match v with
  | .vDict m =>
    match List.lookup ("Title").data m with
    | some t => t.toVal
    | none => .vStr (pyStrOf (.vDict m))
  | .vStr s =>
    if s.contains 'T' && 10 < s.length then
      match isoToDate? (pyReplaceChar 'Z' ("+00:00").data s) with
      | some d => .vStr d
      | none => .vStr s
    else .vStr s
  | .vInt n => .vStr (intToStr n)
  | .vNone => .vStr ("None").data

/-- One step of the display-field loop of `_clean_list_item_data`: absent and
`None`-valued fields are skipped, every other value is cleaned and
appended under its display label. -/
def cleanStep (itemData : ItemData) (acc : ItemData) (f : PyStr × PyStr) :
    ItemData :=
  match List.lookup f.1 itemData with
  | none => acc
  | some .vNone => acc
  | some v => acc ++ [(f.2, cleanFieldValue v)]

/-- Model of `_clean_list_item_data`: collect the cleaned display fields in table
order, skipping absent and `None`-valued ones; when none is found, fall
back to the bare `Title` entry, and to an empty record when that too is
absent. -/
def cleanListItemData (itemData : ItemData) : ItemData :=
  if displayFields.foldl (cleanStep itemData) [] = [] then
    match List.lookup ("Title").data itemData with
    | some t => [(("Title").data, t)]
    | none => []
  else displayFields.foldl (cleanStep itemData) []

/-- Python `text.split(c)`: split at every separator, keeping empty pieces. -/
def pySplitOn (c : Char) : PyStr → List PyStr
  | [] => [[]]
  | x :: xs =>
    let r := pySplitOn c xs
    if x = c then [] :: r
    else
      match r with
      | h :: t => (x :: h) :: t
      | [] => [[x]]

/-- The `field_mapping` table of `_parse_search_query`. -/
def fieldMapping : List (PyStr × PyStr) :=
  [(("status").data, ("Status").data),
   (("assigned to").data, ("AssignedTo").data),
   (("assigned").data, ("AssignedTo").data),
   (("title").data, ("Title").data),
   (("due date").data, ("DueDate").data),
   (("priority").data, ("Priority").data),
   (("category").data, ("Category").data)]

/-- Assignment `filters[k] = v` on a Python dict modelled as an ordered
association list: overwrite in place when the key exists, append
otherwise. -/
def dictInsert (m : List (PyStr × PyStr)) (k v : PyStr) :
    List (PyStr × PyStr) :=
  if m.any (fun p => p.1 = k) then
    m.map (fun p => if p.1 = k then (k, v) else p)
  else m ++ [(k, v)]

/-- Model of `_parse_search_query`: when the query contains a colon, split it on
commas and turn every colon-bearing part into a `field: value` filter,
mapping the trimmed, lowercased field name through `field_mapping` (with
the trimmed original as default); otherwise return no filters. -/
def parseSearchQuery (queryText : PyStr) : List (PyStr × PyStr) :=
  if queryText.contains ':' then
    (pySplitOn ',' queryText).foldl (fun filters part =>
      match splitAtFirst ':' part with
      | some (field, value) =>
        let field := pyStrip field
        let value := pyStrip value
        let mapped := (List.lookup (pyLower field) fieldMapping).getD field
        dictInsert filters mapped value
      | none => filters) []
  else []

/- ---------------------------------------------------------------------
   Repository client (src/clients/sharepoint_client.py)
--------------------------------------------------------------------- -/

/-- The client state the operations inspect: the `is_connected` flag and
whether a `ClientContext` is held. -/
structure ClientState where
  isConnected : Bool
  hasCtx : Bool
deriving DecidableEq, Repr

/-- One remote container: its metadata properties and its items. -/
structure SPListData where
  properties : ItemData
  items : List ItemData
deriving DecidableEq, Repr

/-- The remote site as the transport exposes it: containers by title, file
contents by server-relative path, and the exception texts the transport
produces for missing resources. -/
structure Server where
  lists : List (PyStr × SPListData)
  missingListMsg : PyStr
  files : List (PyStr × List Nat)
  missingFileMsg : PyStr
deriving DecidableEq, Repr

/-- The message of the connection error `_ensure_connected` raises. -/
def notConnectedMsg : PyStr :=
  ("Not connected to SharePoint. Call connect() first.").data

/-- Model of `_ensure_connected`. -/
def ensureConnected (st : ClientState) : Except PyExc Unit :=
  if !st.isConnected || !st.hasCtx then .error (.spConnection notConnectedMsg)
  else .ok ()

/-- One `load + execute_query` round trip fetching the items of a container;
a missing container raises the `ClientRequestException` of the transport. -/
def getListItems (server : Server) (title : PyStr) :
    Except PyExc (List ItemData) :=
  match List.lookup title server.lists with
  | some l => .ok l.items
  | none => .error (.clientRequest server.missingListMsg)

/-- Model of `File.open_binary`: the binary content fetch. -/
def openBinary (server : Server) (fileUrl : PyStr) :
    Except PyExc (List Nat) :=
  match List.lookup fileUrl server.files with
  | some content => .ok content
  | none => .error (.clientRequest server.missingFileMsg)

/-- The substring-marker classification of a `ClientRequestException` inside
`_handle_sharepoint_errors`. -/
def classifyTransportError (operation msg : PyStr) : PyExc :=
  if pySubstr ("401").data msg || pySubstr ("403").data msg then
    .spAuth (("Authentication failed during ").data ++ operation)
  else if pySubstr ("404").data msg then
    .spNotFound (("Resource not found during ").data ++ operation)
  else if pySubstr ("timeout").data (pyLower msg) then
    .spTimeout (("Request timed out during ").data ++ operation)
  else
    .spConnection (("SharePoint API error during ").data ++ operation)

/-- Model of `_handle_sharepoint_errors`: a `ClientRequestException` escaping the
wrapped block is classified by substring markers; every other exception,
including the typed errors the block itself raises, is re-raised as
`SharePointConnectionError` by the final `except Exception` clause. -/
def handleSharePointErrors (operation : PyStr) :
    Except PyExc α → Except PyExc α
  | .ok a => .ok a
  | .error (.clientRequest m) => .error (classifyTransportError operation m)
  | .error _ =>
    .error (.spConnection (("Unexpected error during ").data ++ operation))

/-- Model of `_get_author_name`: the `Title` entry of a user object, `"Unknown"`
otherwise. -/
def getAuthorName : PyVal → PyVal
  | .vDict m =>
    match List.lookup ("Title").data m with
    | some t => t.toVal
    | none => .vStr ("Unknown").data
  | _ => .vStr ("Unknown").data

/-- The result row `search_documents` builds for one matched item; every
field is read with a `get` default. -/
def mkSearchRow (item : ItemData) : ItemData :=
  [(("Name").data, itemGet item ("FileLeafRef").data (.vStr [])),
   (("Modified").data, itemGet item ("Modified").data (.vStr [])),
   (("Author").data, getAuthorName (itemGet item ("Editor").data (.vDict []))),
   (("Size").data, itemGet item ("File_x0020_Size").data (.vInt 0)),
   (("FileRef").data, itemGet item ("FileRef").data (.vStr [])),
   (("ContentType").data, itemGet item ("ContentType").data (.vStr [])),
   (("Created").data, itemGet item ("Created").data (.vStr []))]

/-- The filename match of `search_documents`: `query_lower in
file_name.lower()`; a non-string `FileLeafRef` raises, as `.lower()` does
in the source. -/
def fileNameMatches (queryLower : PyStr) (item : ItemData) :
    Except PyExc Bool :=
  match itemGet item ("FileLeafRef").data (.vStr []) with
  | .vStr s => .ok (pySubstr queryLower (pyLower s))
  | _ => .error (.pyError (("str has no attribute lower").data))

/-- The item loop of `search_documents`: build a row for every item whose
display filename contains the query. -/
def buildSearchRows (queryLower : PyStr) : List ItemData →
    Except PyExc (List ItemData)
  | [] => .ok []
  | item :: rest =>
    match fileNameMatches queryLower item with
    | .error e => .error e
    | .ok b =>
      match buildSearchRows queryLower rest with
      | .error e => .error e
      | .ok rows => .ok (if b then mkSearchRow item :: rows else rows)

/-- The result cap both search operations apply. -/
def capResults (rows : List α) : List α :=
  if MAX_SEARCH_RESULTS < rows.length then rows.take MAX_SEARCH_RESULTS
  else rows

/-- The metadata record `list_document_libraries` builds per library. -/
def libraryInfo (props : ItemData) : ItemData :=
  [(("title").data, itemGet props ("Title").data (.vStr [])),
   (("description").data, itemGet props ("Description").data (.vStr [])),
   (("item_count").data, itemGet props ("ItemCount").data (.vInt 0)),
   (("created").data, itemGet props ("Created").data (.vStr [])),
   (("last_modified").data,
    itemGet props ("LastItemModifiedDate").data (.vStr [])),
   (("id").data, itemGet props ("Id").data (.vStr []))]

/-- Model of `list_document_libraries`.  The second component of every
result of an operation is the trace of transport round trips it
performed. -/
def listDocumentLibraries (st : ClientState) (server : Server) :
    Except PyExc (List ItemData) × List PyStr :=
  match ensureConnected st with
  | .error e => (.error e, [])
  | .ok _ =>
    let body : Except PyExc (List ItemData) :=
      .ok ((server.lists.filter (fun l =>
        itemGet l.2.properties ("BaseTemplate").data .vNone ==
          .vInt DOCUMENT_LIBRARY_TEMPLATE)).map
        (fun l => libraryInfo l.2.properties))
    (handleSharePointErrors (("listing document libraries").data) body,
     [("load site lists").data])

/-- Model of `search_documents`: connection check, input validation, one fetch of the
library items, the filename filter, the result cap; the inner `except`
turns a 404-marked transport error into the typed not-found error, which
the surrounding `_handle_sharepoint_errors` block then re-wraps. -/
def searchDocuments (st : ClientState) (server : Server)
    (libraryTitle queryText : PyStr) :
    Except PyExc (List ItemData) × List PyStr :=
  match ensureConnected st with
  | .error e => (.error e, [])
  | .ok _ =>
    match validateLibraryName libraryTitle with
    | .error e => (.error e, [])
    | .ok vlib =>
      match validateSearchQuery queryText with
      | .error e => (.error e, [])
      | .ok vq =>
        let body : Except PyExc (List ItemData) :=
          match getListItems server vlib with
          | .error (.clientRequest m) =>
            if pySubstr ("404").data m then
              .error (.spNotFound (("Library not found: ").data ++ vlib))
            else .error (.clientRequest m)
          | .error e => .error e
          | .ok items =>
            match buildSearchRows (pyLower vq) items with
            | .error e => .error e
            | .ok results => .ok (capResults results)
        (handleSharePointErrors (("searching documents in ").data ++ vlib)
          body,
         [("load items of ").data ++ vlib])

/-- The per-item filter of `list_items` and of the filter branch of
`search_list_items`: for every requested field, the stringified value must
contain the filter value, case-insensitively. -/
def filtersMatch (filters : List (PyStr × PyStr)) (itemData : ItemData) :
    Bool :=
  filters.all (fun fv =>
    pySubstr (pyLower fv.2)
      (pyLower (pyStrOf (itemGet itemData fv.1 (.vStr [])))))

/-- Model of `list_items`: fetch all items and apply the optional field filters; an
absent or empty filter dict disables filtering. -/
def listItems (st : ClientState) (server : Server) (listTitle : PyStr)
    (filters : Option (List (PyStr × PyStr))) :
    Except PyExc (List ItemData) × List PyStr :=
  match ensureConnected st with
  | .error e => (.error e, [])
  | .ok _ =>
    match validateLibraryName listTitle with
    | .error e => (.error e, [])
    | .ok vlt =>
      let body : Except PyExc (List ItemData) :=
        match getListItems server vlt with
        | .error (.clientRequest m) =>
          if pySubstr ("404").data m then
            .error (.spNotFound (("List not found: ").data ++ vlt))
          else .error (.clientRequest m)
        | .error e => .error e
        | .ok items =>
          let fs := filters.getD []
          .ok (if fs = [] then items else items.filter (filtersMatch fs))
      (handleSharePointErrors (("listing items from ").data ++ vlt) body,
       [("load items of ").data ++ vlt])

/-- The per-item decision of `search_list_items`: with parsed filters, the
field-filter match; without, a scan of every string-typed field for the
whole query. -/
def listItemMatches (searchFilters : List (PyStr × PyStr))
    (queryLower : PyStr) (itemData : ItemData) : Bool :=
  if searchFilters ≠ [] then filtersMatch searchFilters itemData
  else itemData.any (fun kv =>
    match kv.2 with
    | .vStr s => pySubstr queryLower (pyLower s)
    | _ => false)

/-- Model of `search_list_items`: fetch all items (no inner 404 translation here, in
contrast to `search_documents`), parse the query into field filters,
filter, shape every match through `_clean_list_item_data`, cap. -/
def searchListItems (st : ClientState) (server : Server)
    (listTitle queryText : PyStr) :
    Except PyExc (List ItemData) × List PyStr :=
  match ensureConnected st with
  | .error e => (.error e, [])
  | .ok _ =>
    match validateLibraryName listTitle with
    | .error e => (.error e, [])
    | .ok vlt =>
      match validateSearchQuery queryText with
      | .error e => (.error e, [])
      | .ok vq =>
        let body : Except PyExc (List ItemData) :=
          match getListItems server vlt with
          | .error e => .error e
          | .ok items =>
            let searchFilters := parseSearchQuery vq
            let matched :=
              items.filter (listItemMatches searchFilters (pyLower vq))
            .ok (capResults (matched.map cleanListItemData))
        (handleSharePointErrors
          (("searching list items in ").data ++ vlt) body,
         [("load items of ").data ++ vlt])

/-- Python truthiness of a field value, for `if not file_url`. -/
def pyFalsy : PyVal → Bool
  | .vNone => true
  | .vStr s => s.isEmpty
  | .vInt n => n == 0
  | .vDict m => m.isEmpty

/-- Model of `_find_file_url`: fetch the library items, swallowing every failure into
`None`; return the `FileRef` of the first item whose `FileLeafRef` equals
the requested name, `None` when there is none. -/
def findFileUrl (server : Server) (libraryTitle fileName : PyStr) : PyVal :=
  match getListItems server libraryTitle with
  | .error _ => .vNone
  | .ok items =>
    match items.find? (fun it =>
      itemGet it ("FileLeafRef").data .vNone == .vStr fileName) with
    | some it => itemGet it ("FileRef").data .vNone
    | none => .vNone

/-- Model of `download_file`: connection check, input validation, path lookup by
linear scan, the typed not-found error for a falsy path, one binary fetch,
the typed download error for empty content; the `_handle_sharepoint_errors`
block re-wraps the typed errors, after which the outer `except` chain
(whose arms for the two typed file errors are then unreachable) converts
any remaining failure into the typed download error. -/
def downloadFile (st : ClientState) (server : Server)
    (libraryTitle fileName : PyStr) :
    Except PyExc (List Nat) × List PyStr :=
  match ensureConnected st with
  | .error e => (.error e, [])
  | .ok _ =>
    match validateLibraryName libraryTitle with
    | .error e => (.error e, [])
    | .ok vlib =>
      match validateFilename fileName with
      | .error e => (.error e, [])
      | .ok vfile =>
        let fileUrl := findFileUrl server vlib vfile
        let fetch : Except PyExc (List Nat) × List PyStr :=
          if pyFalsy fileUrl then
            (.error (.fileNotFound (("File not found: ").data ++ vfile)), [])
          else
            match fileUrl with
            | .vStr u =>
              (match openBinary server u with
               | .error e => .error e
               | .ok content =>
                 if content = [] then
                   .error (.fileDownload
                     (("Failed to download file content for ").data ++ vfile))
                 else .ok content,
               [("open binary ").data ++ u])
            | _ => (.error (.pyError (("invalid file url").data)), [])
        let handled :=
          handleSharePointErrors (("downloading file ").data ++ vfile)
            fetch.1
        let final : Except PyExc (List Nat) :=
          match handled with
          | .ok c => .ok c
          | .error (.fileNotFound m) => .error (.fileNotFound m)
          | .error (.fileDownload m) => .error (.fileDownload m)
          | .error _ =>
            .error (.fileDownload (("Download failed for ").data ++ vfile))
        (final, (("load items of ").data ++ vlib) :: fetch.2)

/- ---------------------------------------------------------------------
   Fixtures
--------------------------------------------------------------------- -/

/-- Fixture: a client that has completed a successful connect. -/
def connectedClient : ClientState := ⟨true, true⟩

/-- Fixture item: a document with full metadata. -/
def itemPolicy : ItemData :=
  [(("FileLeafRef").data, .vStr ("hr policy.pdf").data),
   (("FileRef").data, .vStr ("/sites/hr/Documents/hr policy.pdf").data),
   (("Modified").data, .vStr ("2024-01-15T10:30:00Z").data),
   (("Editor").data, .vDict [(("Title").data, .pStr ("Jane Doe").data)]),
   (("File_x0020_Size").data, .vInt 2048)]

/-- Fixture item: a document record carrying only its display filename. -/
def itemReadme : ItemData := [(("FileLeafRef").data, .vStr ("readme.txt").data)]

/-- Fixture item: a document whose binary content is empty on the server. -/
def itemEmpty : ItemData :=
  [(("FileLeafRef").data, .vStr ("empty.txt").data),
   (("FileRef").data, .vStr ("/sites/hr/Documents/empty.txt").data)]

/-- Fixture site: one document library `Documents` with three files; the
transport reports missing lists and files with 404-marked messages. -/
def siteFx : Server :=
  { lists := [(("Documents").data,
      { properties := [(("BaseTemplate").data, .vInt 101)],
        items := [itemPolicy, itemReadme, itemEmpty] })],
    missingListMsg := ("List does not exist (404)").data,
    files := [(("/sites/hr/Documents/hr policy.pdf").data, [1, 2, 3]),
              (("/sites/hr/Documents/empty.txt").data, [])],
    missingFileMsg := ("File not found (404)").data }

/-- Fixture list row: a pending task. -/
def checklistItem1 : ItemData :=
  [(("Title").data, .vStr ("Set up laptop").data),
   (("Status").data, .vStr ("Pending").data)]

/-- Fixture list row: a completed task mentioning alice. -/
def checklistItem2 : ItemData :=
  [(("Title").data, .vStr ("Badge for alice").data),
   (("Status").data, .vStr ("Done").data)]

/-- Fixture site: a generic list `Onboarding Checklist` with two rows. -/
def checklistFx : Server :=
  { lists := [(("Onboarding Checklist").data,
      { properties := [(("BaseTemplate").data, .vInt 100)],
        items := [checklistItem1, checklistItem2] })],
    missingListMsg := ("nope (404)").data,
    files := [],
    missingFileMsg := [] }

/-- Fixture: an empty remote site. -/
def emptyServer : Server :=
  { lists := [], missingListMsg := [], files := [], missingFileMsg := [] }

/- ---------------------------------------------------------------------
   Helper lemmas
--------------------------------------------------------------------- -/

theorem pyStrip_nil_of_all_space (s : PyStr) (h : s.all isPySpace = true) :
    pyStrip s = [] := by
  have hd : s.dropWhile isPySpace = [] := by
    rw [List.dropWhile_eq_nil_iff]
    intro x hx
    exact List.all_eq_true.mp h x hx
  simp [pyStrip, hd]

theorem validateSearchQuery_ok_eq {q r : PyStr}
    (h : validateSearchQuery q = .ok r) : r = pyStrip q := by
  unfold validateSearchQuery at h
  split at h
  · simp at h
  · split at h
    · simp at h
    · split at h
      · simp at h
      · split at h
        · simp at h
        · simp at h
          exact h.symm

theorem validateLibraryName_ok_eq {t v : PyStr}
    (h : validateLibraryName t = .ok v) : v = pyStrip t := by
  unfold validateLibraryName at h
  split at h
  · simp at h
  · split at h
    · simp at h
    · split at h
      · simp at h
      · simp at h
        exact h.symm

theorem handleSharePointErrors_ok_iff {op : PyStr} {r : Except PyExc α}
    {a : α} : handleSharePointErrors op r = .ok a ↔ r = .ok a := by
  constructor
  · intro h
    match r with
    | .ok b => simpa [handleSharePointErrors] using h
    | .error (.clientRequest m) =>
      simp [handleSharePointErrors, classifyTransportError] at h
    | .error (.spConnection m) | .error (.spAuth m) | .error (.spNotFound m)
    | .error (.spTimeout m) | .error (.fileNotFound m)
    | .error (.fileDownload m) | .error (.validationError m)
    | .error (.securityError m) | .error (.pyError m) =>
      simp [handleSharePointErrors] at h
  · intro h
    rw [h]
    rfl

/- ---------------------------------------------------------------------
   C1: operations on a disconnected client
--------------------------------------------------------------------- -/

/-- C1: every public repository-client operation invoked while the connected
flag is false fails with the connection error `_ensure_connected` raises,
and performs no transport round trip (its trace is empty). -/
theorem operations_disconnected_fail_without_transport
    (st : ClientState) (server : Server) (lib q lt fn : PyStr)
    (filters : Option (List (PyStr × PyStr)))
    (h : st.isConnected = false) :
    listDocumentLibraries st server =
      (.error (.spConnection notConnectedMsg), []) ∧
    searchDocuments st server lib q =
      (.error (.spConnection notConnectedMsg), []) ∧
    listItems st server lt filters =
      (.error (.spConnection notConnectedMsg), []) ∧
    searchListItems st server lt q =
      (.error (.spConnection notConnectedMsg), []) ∧
    downloadFile st server lib fn =
      (.error (.spConnection notConnectedMsg), []) := by
  have he : ensureConnected st = .error (.spConnection notConnectedMsg) := by
    simp [ensureConnected, h]
  refine ⟨?_, ?_, ?_, ?_, ?_⟩ <;>
    simp [listDocumentLibraries, searchDocuments, listItems, searchListItems,
      downloadFile, he]

/-- Witness for C1 at a concrete disconnected client. -/
theorem operations_disconnected_fail_without_transport_witness :
    listDocumentLibraries ⟨false, true⟩ siteFx =
      (.error (.spConnection notConnectedMsg), []) ∧
    searchDocuments ⟨false, true⟩ siteFx (("Documents").data)
      (("policy").data) = (.error (.spConnection notConnectedMsg), []) ∧
    listItems ⟨false, true⟩ siteFx (("Documents").data) none =
      (.error (.spConnection notConnectedMsg), []) ∧
    searchListItems ⟨false, true⟩ siteFx (("Documents").data)
      (("policy").data) = (.error (.spConnection notConnectedMsg), []) ∧
    downloadFile ⟨false, true⟩ siteFx (("Documents").data)
      (("a.pdf").data) = (.error (.spConnection notConnectedMsg), []) :=
  operations_disconnected_fail_without_transport ⟨false, true⟩ siteFx
    (("Documents").data) (("policy").data) (("Documents").data)
    (("a.pdf").data) none rfl

/- ---------------------------------------------------------------------
   C2: missing library during search_documents
--------------------------------------------------------------------- -/

/-- C2: on a connected client, searching a library absent from the remote
site does NOT surface the typed not-found error the claim (and the
docstring of the function itself) promise.  The inner `except` does raise
`SharePointResourceNotFoundError`, but the enclosing
`_handle_sharepoint_errors` block catches it with its final
`except Exception` clause and re-raises it as
`SharePointConnectionError`, which is what reaches the caller. -/
theorem searchDocuments_missing_library_yields_connection_error :
    (searchDocuments connectedClient siteFx (("HR Library").data)
      (("policy").data)).1 =
    .error (.spConnection
      (("Unexpected error during searching documents in HR Library").data)) :=
  rfl

/- ---------------------------------------------------------------------
   C3: validate_search_query
--------------------------------------------------------------------- -/

/-- C3 counterexample: the emptiness check of `validate_search_query` runs on
the raw input before trimming, so a whitespace-only query is accepted and
the returned query string is empty, contradicting the claimed
non-emptiness of every successful result. -/
theorem validateSearchQuery_whitespace_accepts_empty :
    validateSearchQuery ([' ']) = .ok [] ∧ ([] : PyStr).length = 0 :=
  ⟨rfl, rfl⟩

/-- C3 (amended): a successful `validate_search_query` returns the trimmed
input, which respects the length bound and contains no blacklisted
character and no blacklisted SQL keyword case-insensitively, but may be
empty (only the raw input is checked for emptiness); failures are
`ValidationError` exactly on empty raw input or an over-long trimmed
input, and `SecurityError` exactly on a blacklist hit. -/
theorem validateSearchQuery_characterization (q : PyStr) :
    match validateSearchQuery q with
    | .ok r =>
      q ≠ [] ∧ r = pyStrip q ∧ r.length ≤ MAX_QUERY_LENGTH ∧
      dangerousChars.all (fun c => !r.contains c) = true ∧
      sqlKeywords.all (fun kw => !pySubstr kw (pyUpper r)) = true
    | .error (.validationError _) =>
      q = [] ∨ MAX_QUERY_LENGTH < (pyStrip q).length
    | .error (.securityError _) =>
      dangerousChars.any (fun c => (pyStrip q).contains c) = true ∨
      sqlKeywords.any (fun kw => pySubstr kw (pyUpper (pyStrip q))) = true
    | .error _ => False := by
  unfold validateSearchQuery
  by_cases h1 : q = []
  · simp [h1]
  · simp only [if_neg h1]
    by_cases h2 : MAX_QUERY_LENGTH < (pyStrip q).length
    · simp [h2]
    · simp only [if_neg h2]
      cases hf : dangerousChars.find? (fun c => (pyStrip q).contains c) with
      | some c =>
        simp only [hf]
        have hp : (fun c => (pyStrip q).contains c) c = true :=
          List.find?_some hf
        refine Or.inl (List.any_eq_true.mpr
          ⟨c, List.mem_of_find?_eq_some hf, ?_⟩)
        simpa using hp
      | none =>
        simp only [hf]
        cases hk : sqlKeywords.find?
            (fun kw => pySubstr kw (pyUpper (pyStrip q))) with
        | some kw =>
          simp only [hk]
          have hp := List.find?_some hk
          refine Or.inr (List.any_eq_true.mpr
            ⟨kw, List.mem_of_find?_eq_some hk, ?_⟩)
          simpa using hp
        | none =>
          simp only [hk]
          refine ⟨h1, by simp, Nat.le_of_not_lt h2, ?_, ?_⟩
          · exact List.all_eq_true.mpr fun c hc => by
              simpa using List.find?_eq_none.mp hf c hc
          · exact List.all_eq_true.mpr fun kw hkw => by
              simpa using List.find?_eq_none.mp hk kw hkw

/- ---------------------------------------------------------------------
   C6: download_file failure modes
--------------------------------------------------------------------- -/

/-- C6: on a connected client, `download_file` with no matching display
filename does NOT surface the typed file-not-found error the claim (and
the docstring) promise: the typed error is re-wrapped by
`_handle_sharepoint_errors` into a connection error, which the outer
handler then converts into the typed download error.  The other two
clauses of the claim hold: empty binary content yields the download
error, and otherwise the downloaded bytes are returned. -/
theorem downloadFile_notfound_misclassified_others_ok :
    (downloadFile connectedClient siteFx (("Documents").data)
      (("nofile.pdf").data)).1 =
      .error (.fileDownload (("Download failed for nofile.pdf").data)) ∧
    (downloadFile connectedClient siteFx (("Documents").data)
      (("empty.txt").data)).1 =
      .error (.fileDownload (("Download failed for empty.txt").data)) ∧
    (downloadFile connectedClient siteFx (("Documents").data)
      (("hr policy.pdf").data)).1 = .ok [1, 2, 3] :=
  ⟨rfl, rfl, rfl⟩

/- ---------------------------------------------------------------------
   C9: defaults of the search result row
--------------------------------------------------------------------- -/

/-- C9 counterexample: for an item carrying only its display filename, the
matched row of `search_documents` degrades the author field to
`"Unknown"`, not to the empty string the claim states for every field. -/
theorem searchDocuments_author_default_is_unknown :
    (searchDocuments connectedClient siteFx (("Documents").data)
      (("readme").data)).1 =
      .ok [[(("Name").data, .vStr ("readme.txt").data),
            (("Modified").data, .vStr []),
            (("Author").data, .vStr ("Unknown").data),
            (("Size").data, .vInt 0),
            (("FileRef").data, .vStr []),
            (("ContentType").data, .vStr []),
            (("Created").data, .vStr [])]] ∧
    PyVal.vStr (("Unknown").data) ≠ PyVal.vStr [] :=
  ⟨rfl, by decide⟩

/-- C9 (amended): every field of the row `search_documents` builds degrades
to a default when absent from the server record instead of failing the
operation: the empty string for name, last-modified, path, content-type
and creation, zero for the byte size, and `"Unknown"` for the author. -/
theorem mkSearchRow_missing_field_defaults (item : ItemData) :
    (List.lookup (("FileLeafRef").data) item = none →
      ((("Name").data, PyVal.vStr []) ∈ mkSearchRow item)) ∧
    (List.lookup (("Modified").data) item = none →
      ((("Modified").data, PyVal.vStr []) ∈ mkSearchRow item)) ∧
    (List.lookup (("Editor").data) item = none →
      ((("Author").data, PyVal.vStr (("Unknown").data)) ∈ mkSearchRow item)) ∧
    (List.lookup (("File_x0020_Size").data) item = none →
      ((("Size").data, PyVal.vInt 0) ∈ mkSearchRow item)) ∧
    (List.lookup (("FileRef").data) item = none →
      ((("FileRef").data, PyVal.vStr []) ∈ mkSearchRow item)) ∧
    (List.lookup (("ContentType").data) item = none →
      ((("ContentType").data, PyVal.vStr []) ∈ mkSearchRow item)) ∧
    (List.lookup (("Created").data) item = none →
      ((("Created").data, PyVal.vStr []) ∈ mkSearchRow item)) := by
  refine ⟨?_, ?_, ?_, ?_, ?_, ?_, ?_⟩ <;> intro h <;>
    (unfold mkSearchRow
     simp only [itemGet, h, Option.getD_none]) <;>
    first
    | exact List.mem_cons_self _ _
    | exact List.mem_cons_of_mem _ (List.mem_cons_self _ _)
    | exact List.mem_cons_of_mem _ (List.mem_cons_of_mem _
        (List.mem_cons_self _ _))
    | exact List.mem_cons_of_mem _ (List.mem_cons_of_mem _
        (List.mem_cons_of_mem _ (List.mem_cons_self _ _)))
    | exact List.mem_cons_of_mem _ (List.mem_cons_of_mem _
        (List.mem_cons_of_mem _ (List.mem_cons_of_mem _
          (List.mem_cons_self _ _))))
    | exact List.mem_cons_of_mem _ (List.mem_cons_of_mem _
        (List.mem_cons_of_mem _ (List.mem_cons_of_mem _
          (List.mem_cons_of_mem _ (List.mem_cons_self _ _)))))
    | exact List.mem_cons_of_mem _ (List.mem_cons_of_mem _
        (List.mem_cons_of_mem _ (List.mem_cons_of_mem _
          (List.mem_cons_of_mem _ (List.mem_cons_of_mem _
            (List.mem_cons_self _ _))))))

/-- Witness for C9 at the empty server record: every lookup is absent. -/
theorem mkSearchRow_missing_field_defaults_witness :
    ((("Name").data, PyVal.vStr []) ∈ mkSearchRow []) ∧
    ((("Author").data, PyVal.vStr (("Unknown").data)) ∈ mkSearchRow []) ∧
    ((("Size").data, PyVal.vInt 0) ∈ mkSearchRow []) :=
  ⟨(mkSearchRow_missing_field_defaults []).1 rfl,
   (mkSearchRow_missing_field_defaults []).2.2.1 rfl,
   (mkSearchRow_missing_field_defaults []).2.2.2.1 rfl⟩

/- ---------------------------------------------------------------------
   C10: validate_credentials whitespace asymmetry
--------------------------------------------------------------------- -/

/-- C10: the emptiness check of `validate_credentials` runs before trimming,
so a whitespace-only client id is accepted and returned as the empty
string, while a whitespace-only client secret of any length is rejected
with `ValidationError` because the minimum-length check runs on the
trimmed secret (and the empty secret fails the emptiness check). -/
theorem validateCredentials_whitespace_asymmetry (s : PyStr)
    (hs : s.all isPySpace = true) :
    validateCredentials (("   ").data) (("abcdefghij1234567890").data) =
      .ok ([], ("abcdefghij1234567890").data) ∧
    ∃ m, validateCredentials
      (("12345678-1234-1234-1234-123456789012").data) s =
      .error (.validationError m) := by
  refine ⟨rfl, ?_⟩
  by_cases h : s = []
  · exact ⟨("Client secret cannot be empty").data,
      by simp [validateCredentials, h]⟩
  · have hstrip : pyStrip s = [] := pyStrip_nil_of_all_space s hs
    refine ⟨("Client secret appears too short").data, ?_⟩
    simp [validateCredentials, h, hstrip]

/-- Witness for C10 at a four-space secret. -/
theorem validateCredentials_whitespace_asymmetry_witness :
    (validateCredentials (("   ").data) (("abcdefghij1234567890").data) =
      .ok ([], ("abcdefghij1234567890").data)) ∧
    ∃ m, validateCredentials
      (("12345678-1234-1234-1234-123456789012").data) (("    ").data) =
      .error (.validationError m) :=
  validateCredentials_whitespace_asymmetry (("    ").data) (by decide)

/- ---------------------------------------------------------------------
   C4: result cap and empty result of search_documents
--------------------------------------------------------------------- -/

/-- The filename match of `search_documents` as a Boolean predicate, defined
on the items whose display filename is a string. -/
def fileNameMatchB (queryLower : PyStr) (item : ItemData) : Bool :=
  match itemGet item (("FileLeafRef").data) (.vStr []) with
  | .vStr s => pySubstr queryLower (pyLower s)
  | _ => false

theorem capResults_length_le (rows : List α) :
    (capResults rows).length ≤ MAX_SEARCH_RESULTS := by
  unfold capResults
  split
  · rw [List.length_take]
    exact Nat.min_le_left _ _
  · omega

theorem buildSearchRows_ok_eq {ql : PyStr} :
    ∀ {items rows : List ItemData}, buildSearchRows ql items = .ok rows →
      rows = (items.filter (fileNameMatchB ql)).map mkSearchRow := by
  intro items
  induction items with
  | nil =>
    intro rows h
    simp [buildSearchRows] at h
    subst h
    rfl
  | cons item rest ih =>
    intro rows h
    unfold buildSearchRows at h
    cases hm : fileNameMatches ql item with
    | error e => rw [hm] at h; simp at h
    | ok b =>
      rw [hm] at h
      cases hr : buildSearchRows ql rest with
      | error e => rw [hr] at h; simp at h
      | ok rs =>
        rw [hr] at h
        simp at h
        have hb : fileNameMatchB ql item = b := by
          unfold fileNameMatches at hm
          unfold fileNameMatchB
          cases hv : itemGet item (("FileLeafRef").data) (.vStr []) with
          | vStr s => rw [hv] at hm; simpa using hm
          | vInt n => rw [hv] at hm; simp at hm
          | vNone => rw [hv] at hm; simp at hm
          | vDict m => rw [hv] at hm; simp at hm
        rw [← h, List.filter_cons, hb]
        cases b <;> simp [ih hr]

theorem searchDocuments_ok_shape {st : ClientState} {server : Server}
    {lib q : PyStr} {df : List ItemData}
    (h : (searchDocuments st server lib q).1 = .ok df) :
    ∃ vlib vq items rows,
      validateLibraryName lib = .ok vlib ∧
      validateSearchQuery q = .ok vq ∧
      getListItems server vlib = .ok items ∧
      buildSearchRows (pyLower vq) items = .ok rows ∧
      df = capResults rows := by
  unfold searchDocuments at h
  cases hE : ensureConnected st with
  | error e => rw [hE] at h; simp at h
  | ok u =>
    rw [hE] at h
    dsimp only at h
    cases hL : validateLibraryName lib with
    | error e => rw [hL] at h; simp at h
    | ok vlib =>
      rw [hL] at h
      dsimp only at h
      cases hQ : validateSearchQuery q with
      | error e => rw [hQ] at h; simp at h
      | ok vq =>
        rw [hQ] at h
        dsimp only at h
        cases hG : getListItems server vlib with
        | error e =>
          cases e <;>
            (rw [hG] at h
             dsimp only at h
             rw [handleSharePointErrors_ok_iff] at h) <;>
            first
            | (split at h <;> simp at h)
            | simp at h
        | ok items =>
          rw [hG] at h
          dsimp only at h
          cases hB : buildSearchRows (pyLower vq) items with
          | error e =>
            rw [hB] at h
            dsimp only at h
            rw [handleSharePointErrors_ok_iff] at h
            simp at h
          | ok rows =>
            rw [hB] at h
            dsimp only at h
            rw [handleSharePointErrors_ok_iff] at h
            simp at h
            exact ⟨vlib, vq, items, rows, rfl, rfl, hG, hB, h.symm⟩

/-- C4: whenever `search_documents` returns a result set, its length never
exceeds `MAX_SEARCH_RESULTS` (100); and when zero items of the fetched
library match the query, the result is the empty table, not an error. -/
theorem searchDocuments_result_bounded (st : ClientState) (server : Server)
    (lib q : PyStr) (df : List ItemData)
    (h : (searchDocuments st server lib q).1 = .ok df) :
    df.length ≤ MAX_SEARCH_RESULTS ∧
    (∀ items, getListItems server (pyStrip lib) = .ok items →
      items.all (fun it => !fileNameMatchB (pyLower (pyStrip q)) it) = true →
      df = []) := by
  obtain ⟨vlib, vq, items0, rows, hL, hQ, hG, hB, hdf⟩ :=
    searchDocuments_ok_shape h
  have hvl := validateLibraryName_ok_eq hL
  have hvq := validateSearchQuery_ok_eq hQ
  subst hvl hvq
  constructor
  · rw [hdf]
    exact capResults_length_le rows
  · intro items hG2 hall
    rw [hG] at hG2
    have hitems : items0 = items := by simpa using hG2
    subst hitems
    have hrows := buildSearchRows_ok_eq hB
    have hfilter :
        items0.filter (fileNameMatchB (pyLower (pyStrip q))) = [] := by
      rw [List.filter_eq_nil_iff]
      intro a ha
      have := List.all_eq_true.mp hall a ha
      simpa using this
    rw [hdf, hrows, hfilter]
    rfl

/-- Witness for C4: one match stays within the cap; a query matching nothing
returns the empty table. -/
theorem searchDocuments_result_bounded_witness :
    ([mkSearchRow itemPolicy] : List ItemData).length ≤ MAX_SEARCH_RESULTS ∧
    ([] : List ItemData) = [] :=
  ⟨(searchDocuments_result_bounded connectedClient siteFx
      (("Documents").data) (("policy").data) [mkSearchRow itemPolicy]
      rfl).1,
   (searchDocuments_result_bounded connectedClient siteFx
      (("Documents").data) (("zzz").data) [] rfl).2
      [itemPolicy, itemReadme, itemEmpty] rfl (by decide)⟩

/- ---------------------------------------------------------------------
   C7: search_list_items query semantics
--------------------------------------------------------------------- -/

/-- The field-filter match of the claim: every parsed `field: value` pair
must have its value contained, case-insensitively, in the stringified
value of the named field of the item. -/
def fieldFilterPred (fs : List (PyStr × PyStr)) (it : ItemData) : Bool :=
  fs.all (fun fv =>
    pySubstr (pyLower fv.2)
      (pyLower (pyStrOf (itemGet it fv.1 (.vStr [])))))

/-- The fallback scan of the claim: some string-typed field contains the
whole query, case-insensitively. -/
def scanPred (vq : PyStr) (it : ItemData) : Bool :=
  it.any (fun kv =>
    match kv.2 with
    | .vStr s => pySubstr (pyLower vq) (pyLower s)
    | _ => false)

theorem searchListItems_ok_shape {st : ClientState} {server : Server}
    {lt q : PyStr} {df : List ItemData}
    (h : (searchListItems st server lt q).1 = .ok df) :
    ∃ vlt vq items,
      validateLibraryName lt = .ok vlt ∧
      validateSearchQuery q = .ok vq ∧
      getListItems server vlt = .ok items ∧
      df = capResults ((items.filter
        (listItemMatches (parseSearchQuery vq) (pyLower vq))).map
        cleanListItemData) := by
  unfold searchListItems at h
  cases hE : ensureConnected st with
  | error e => rw [hE] at h; simp at h
  | ok u =>
    rw [hE] at h
    dsimp only at h
    cases hL : validateLibraryName lt with
    | error e => rw [hL] at h; simp at h
    | ok vlt =>
      rw [hL] at h
      dsimp only at h
      cases hQ : validateSearchQuery q with
      | error e => rw [hQ] at h; simp at h
      | ok vq =>
        rw [hQ] at h
        dsimp only at h
        cases hG : getListItems server vlt with
        | error e =>
          rw [hG] at h
          dsimp only at h
          rw [handleSharePointErrors_ok_iff] at h
          simp at h
        | ok items =>
          rw [hG] at h
          dsimp only at h
          rw [handleSharePointErrors_ok_iff] at h
          simp at h
          exact ⟨vlt, vq, items, rfl, rfl, hG, h.symm⟩

/-- C7: whenever `search_list_items` returns a result set, the query was
parsed by `_parse_search_query` (so `"Status: Pending"` yields the single
filter `Status := "Pending"`) and the result is exactly the fetched items
selected by the parsed field filters when the query contains a colon, and
by the full scan of string-typed fields when it does not, shaped through
the display cleanup and capped. -/
theorem searchListItems_query_semantics (st : ClientState) (server : Server)
    (lt q : PyStr) (df : List ItemData)
    (h : (searchListItems st server lt q).1 = .ok df) :
    parseSearchQuery (("Status: Pending").data) =
      [(("Status").data, ("Pending").data)] ∧
    ∀ items, getListItems server (pyStrip lt) = .ok items →
      (parseSearchQuery (pyStrip q) ≠ [] →
        df = capResults ((items.filter
          (fieldFilterPred (parseSearchQuery (pyStrip q)))).map
          cleanListItemData)) ∧
      (parseSearchQuery (pyStrip q) = [] →
        df = capResults ((items.filter (scanPred (pyStrip q))).map
          cleanListItemData)) := by
  refine ⟨rfl, ?_⟩
  obtain ⟨vlt, vq, items0, hL, hQ, hG, hdf⟩ := searchListItems_ok_shape h
  have hvl := validateLibraryName_ok_eq hL
  have hvq := validateSearchQuery_ok_eq hQ
  subst hvl hvq
  intro items hG2
  rw [hG] at hG2
  have hitems : items0 = items := by simpa using hG2
  subst hitems
  constructor
  · intro hfs
    rw [hdf]
    have hfil : items0.filter
        (listItemMatches (parseSearchQuery (pyStrip q))
          (pyLower (pyStrip q))) =
        items0.filter (fieldFilterPred (parseSearchQuery (pyStrip q))) :=
      List.filter_congr (fun a _ => by
        unfold listItemMatches filtersMatch fieldFilterPred
        rw [if_pos hfs])
    rw [hfil]
  · intro hfs
    rw [hdf]
    have hfil : items0.filter
        (listItemMatches (parseSearchQuery (pyStrip q))
          (pyLower (pyStrip q))) =
        items0.filter (scanPred (pyStrip q)) :=
      List.filter_congr (fun a _ => by
        unfold listItemMatches scanPred
        rw [hfs]
        simp)
    rw [hfil]

/-- Witness for C7: the colon query on the checklist fixture selects exactly
the pending row. -/
theorem searchListItems_query_semantics_witness :
    parseSearchQuery (("Status: Pending").data) =
      [(("Status").data, ("Pending").data)] ∧
    [cleanListItemData checklistItem1] =
      capResults (([checklistItem1, checklistItem2].filter
        (fieldFilterPred (parseSearchQuery
          (pyStrip (("Status: Pending").data))))).map cleanListItemData) := by
  have h := searchListItems_query_semantics connectedClient checklistFx
    (("Onboarding Checklist").data) (("Status: Pending").data)
    [cleanListItemData checklistItem1] rfl
  exact ⟨h.1, (h.2 [checklistItem1, checklistItem2] rfl).1 (by decide)⟩

/- ---------------------------------------------------------------------
   C8: the result shaper
--------------------------------------------------------------------- -/

/-- Per-value cleanup as the claim states it, restated from the words of
the specification:
a dict-valued display field reduces to its nested `Title` when present
and to its stringification otherwise; a string containing `T` and longer
than ten characters is reformatted to `YYYY-MM-DD`, falling back to the
raw string when the parse fails; every other value is stringified. -/
def specCleanValue (v : PyVal) : PyVal :=
  match v with
  | .vDict m =>
    match List.lookup ("Title").data m with
    | some t => t.toVal
    | none => .vStr (pyStrOf (.vDict m))
  | .vStr s =>
    if s.contains 'T' && 10 < s.length then
      match isoToDate? (pyReplaceChar 'Z' ("+00:00").data s) with
      | some d => .vStr d
      | none => .vStr s
    else .vStr s
  | v => .vStr (pyStrOf v)

/-- Whether a record carries a usable (present, non-None) value for a display
field. -/
def hasDisplayValue (d : ItemData) (f : PyStr × PyStr) : Bool :=
  match List.lookup f.1 d with
  | none => false
  | some .vNone => false
  | some _ => true

/-- The shaper as the claim describes it: the display fields with a usable
value, in table order, each cleaned per `specCleanValue`; the bare `Title`
entry when no display field has a usable value; the empty record when
`Title` too is absent. -/
def cleanListItemDataSpec (d : ItemData) : ItemData :=
  if (displayFields.filter (hasDisplayValue d)).map
      (fun f => (f.2, specCleanValue ((List.lookup f.1 d).getD .vNone))) =
      [] then
    match List.lookup ("Title").data d with
    | some t => [(("Title").data, t)]
    | none => []
  else
    (displayFields.filter (hasDisplayValue d)).map
      (fun f => (f.2, specCleanValue ((List.lookup f.1 d).getD .vNone)))

theorem cleanFold_eq (d : ItemData) :
    ∀ (fs : List (PyStr × PyStr)) (acc : ItemData),
      fs.foldl (cleanStep d) acc =
        acc ++ (fs.filter (hasDisplayValue d)).map
          (fun f => (f.2, cleanFieldValue ((List.lookup f.1 d).getD .vNone))) := by
  intro fs
  induction fs with
  | nil => intro acc; simp
  | cons f rest ih =>
    intro acc
    simp only [List.foldl_cons, List.filter_cons]
    cases hv : List.lookup f.1 d with
    | none => simp [cleanStep, hasDisplayValue, hv, ih]
    | some v =>
      cases v with
      | vNone => simp [cleanStep, hasDisplayValue, hv, ih]
      | vStr s => simp [cleanStep, hasDisplayValue, hv, ih]
      | vInt n => simp [cleanStep, hasDisplayValue, hv, ih]
      | vDict m => simp [cleanStep, hasDisplayValue, hv, ih]

/-- C8: `_clean_list_item_data` is a total function (it is defined for every
raw field map and, in Lean, cannot raise) and agrees exactly with the
description the claim gives of the shaper: usable display fields are
cleaned per
the claimed value rules, a record with no usable display field shapes to
its bare `Title` entry, and to the empty record when `Title` too is
absent. -/
theorem cleanListItemData_matches_spec (d : ItemData) :
    cleanListItemData d = cleanListItemDataSpec d := by
  have hv : specCleanValue = cleanFieldValue := funext fun v => by
    cases v <;> rfl
  unfold cleanListItemData cleanListItemDataSpec
  rw [hv, cleanFold_eq d displayFields []]
  simp

/- ---------------------------------------------------------------------
   C5: lemmas on the URL splitters
--------------------------------------------------------------------- -/

theorem splitAtFirst_not_mem {c : Char} :
    ∀ {s : PyStr}, c ∉ s → splitAtFirst c s = none
  | [], _ => rfl
  | x :: xs, h => by
    have hx : ¬x = c := fun hc => h (hc ▸ List.mem_cons_self x xs)
    have hxs : c ∉ xs := fun hc => h (List.mem_cons_of_mem x hc)
    simp [splitAtFirst, hx, splitAtFirst_not_mem hxs]

theorem splitAtFirst_append {c : Char} :
    ∀ {a : PyStr} (b : PyStr), c ∉ a →
      splitAtFirst c (a ++ c :: b) = some (a, b)
  | [], b, _ => by simp [splitAtFirst]
  | x :: xs, b, h => by
    have hx : ¬x = c := fun hc => h (hc ▸ List.mem_cons_self x xs)
    have hxs : c ∉ xs := fun hc => h (List.mem_cons_of_mem x hc)
    simp [splitAtFirst, hx, splitAtFirst_append b hxs]

theorem splitFragment_not_mem {x : PyStr} (h : '#' ∉ x) :
    splitFragment x = (x, []) := by
  simp [splitFragment, splitAtFirst_not_mem h]

theorem splitFragment_append {a b : PyStr} (h : '#' ∉ a) :
    splitFragment (a ++ '#' :: b) = (a, b) := by
  simp [splitFragment, splitAtFirst_append b h]

theorem splitQuery_not_mem {x : PyStr} (h : '?' ∉ x) :
    splitQuery x = (x, []) := by
  simp [splitQuery, splitAtFirst_not_mem h]

theorem splitQuery_append {a b : PyStr} (h : '?' ∉ a) :
    splitQuery (a ++ '?' :: b) = (a, b) := by
  simp [splitQuery, splitAtFirst_append b h]

theorem splitAtFirst_eq_some {c : Char} :
    ∀ {s a b : PyStr}, splitAtFirst c s = some (a, b) →
      s = a ++ c :: b ∧ c ∉ a := by
  intro s
  induction s with
  | nil => intro a b h; simp [splitAtFirst] at h
  | cons x xs ih =>
    intro a b h
    unfold splitAtFirst at h
    by_cases hx : x = c
    · rw [if_pos hx] at h
      simp at h
      obtain ⟨ha, hb⟩ := h
      subst hx hb ha
      exact ⟨rfl, List.not_mem_nil x⟩
    · rw [if_neg hx] at h
      cases hs : splitAtFirst c xs with
      | none => rw [hs] at h; simp at h
      | some ab =>
        rw [hs] at h
        obtain ⟨a', b'⟩ := ab
        simp at h
        obtain ⟨ha, hb⟩ := h
        obtain ⟨hxs, hna⟩ := ih hs
        subst hb
        rw [← ha, hxs]
        refine ⟨rfl, ?_⟩
        intro hmem
        rcases List.mem_cons.mp hmem with hc | hc
        · exact hx hc.symm
        · exact hna hc

theorem splitAtFirst_eq_none {c : Char} :
    ∀ {s : PyStr}, splitAtFirst c s = none → c ∉ s := by
  intro s
  induction s with
  | nil => intro _ h; exact List.not_mem_nil c h
  | cons x xs ih =>
    intro h
    unfold splitAtFirst at h
    by_cases hx : x = c
    · rw [if_pos hx] at h; simp at h
    · rw [if_neg hx] at h
      cases hs : splitAtFirst c xs with
      | none =>
        intro hmem
        rcases List.mem_cons.mp hmem with hc | hc
        · exact hx hc.symm
        · exact ih hs hc
      | some ab => rw [hs] at h; simp at h

/-- Decompose a string along its fragment split. -/
theorem splitFragment_decomp (x : PyStr) :
    ∃ t, x = (splitFragment x).1 ++ t ∧
      '#' ∉ (splitFragment x).1 ∧
      ((t = [] ∧ (splitFragment x).2 = []) ∨
       t = '#' :: (splitFragment x).2) := by
  unfold splitFragment
  cases hs : splitAtFirst '#' x with
  | none =>
    exact ⟨[], by simp, splitAtFirst_eq_none hs, Or.inl ⟨rfl, rfl⟩⟩
  | some ab =>
    obtain ⟨a, b⟩ := ab
    obtain ⟨hx, hna⟩ := splitAtFirst_eq_some hs
    exact ⟨'#' :: b, by simpa using hx, hna, Or.inr rfl⟩

/-- Decompose a string along its query split. -/
theorem splitQuery_decomp (x : PyStr) :
    ∃ t, x = (splitQuery x).1 ++ t ∧
      '?' ∉ (splitQuery x).1 ∧
      ((t = [] ∧ (splitQuery x).2 = []) ∨
       t = '?' :: (splitQuery x).2) := by
  unfold splitQuery
  cases hs : splitAtFirst '?' x with
  | none =>
    exact ⟨[], by simp, splitAtFirst_eq_none hs, Or.inl ⟨rfl, rfl⟩⟩
  | some ab =>
    obtain ⟨a, b⟩ := ab
    obtain ⟨hx, hna⟩ := splitAtFirst_eq_some hs
    exact ⟨'?' :: b, by simpa using hx, hna, Or.inr rfl⟩

theorem takeWhile_append_all {α : Type} {p : α → Bool} :
    ∀ {a b : List α}, (∀ x ∈ a, p x = true) →
      (∀ y ∈ b.take 1, p y = false) →
      (a ++ b).takeWhile p = a ∧ (a ++ b).dropWhile p = b := by
  intro a
  induction a with
  | nil =>
    intro b _ hb
    cases b with
    | nil => exact ⟨rfl, rfl⟩
    | cons y ys =>
      have hy : p y = false := hb y (by simp)
      simp [List.takeWhile_cons, List.dropWhile_cons, hy]
  | cons x xs ih =>
    intro b ha hb
    have hx : p x = true := ha x (List.mem_cons_self x xs)
    have hxs : ∀ z ∈ xs, p z = true :=
      fun z hz => ha z (List.mem_cons_of_mem x hz)
    obtain ⟨h1, h2⟩ := ih hxs hb
    simp [List.takeWhile_cons, List.dropWhile_cons, hx, h1, h2]

theorem dropWhile_head_false {α : Type} {p : α → Bool} :
    ∀ {l : List α} {y : α} {ys : List α},
      l.dropWhile p = y :: ys → p y = false := by
  intro l
  induction l with
  | nil => intro y ys h; simp at h
  | cons x xs ih =>
    intro y ys h
    rw [List.dropWhile_cons] at h
    by_cases hx : p x = true
    · rw [if_pos hx] at h
      exact ih h
    · rw [if_neg hx] at h
      obtain ⟨hy, _⟩ := List.cons.injEq _ _ _ _ ▸ h
      rw [← hy]
      exact Bool.not_eq_true _ ▸ hx

theorem dropWhile_eq_self_of_all_false {α : Type} {p : α → Bool}
    {l : List α} (h : ∀ x ∈ l, p x = false) : l.dropWhile p = l := by
  cases l with
  | nil => rfl
  | cons x xs =>
    have hx : p x = false := h x (List.mem_cons_self x xs)
    simp [List.dropWhile_cons, hx]

/-- Stripping is the identity on whitespace-free strings. -/
theorem pyStrip_eq_self_of_no_space {u : PyStr}
    (h : ∀ c ∈ u, isPySpace c = false) : pyStrip u = u := by
  unfold pyStrip
  rw [dropWhile_eq_self_of_all_false h]
  rw [dropWhile_eq_self_of_all_false
    (fun c hc => h c (List.mem_reverse.mp hc))]
  exact List.reverse_reverse u

/-- Model of `urlsplit` on a URL written with an explicit lowercase `http`/`https`
scheme and authority marker. -/
theorem urlsplitCore_scheme_authority (s r : PyStr)
    (hs : s = ("http").data ∨ s = ("https").data) :
    urlsplitCore (s ++ ':' :: '/' :: '/' :: r) =
      ⟨s, r.takeWhile (fun c => !isNetlocEnd c),
       (splitQuery (splitFragment
         (r.dropWhile (fun c => !isNetlocEnd c))).1).1,
       [],
       (splitQuery (splitFragment
         (r.dropWhile (fun c => !isNetlocEnd c))).1).2,
       (splitFragment (r.dropWhile (fun c => !isNetlocEnd c))).2⟩ := by
  rcases hs with rfl | rfl <;> rfl

/-- C5 (amended): for every valid absolute http/https URL of the modelled
domain whose authority carries no userinfo and whose path carries no
`;parameters`, `validate_url` returns the `scheme://host[:port]path[?query]`
reconstruction parsed from the input — the input itself up to a dropped
fragment (or a dropped bare `?` with an empty query) — and `validate_url`
is idempotent on it. -/
theorem validateUrl_recon_idempotent (u : PyStr)
    (h1 : validHttpUrl u = true) (h2 : '@' ∉ u) (h3 : ';' ∉ u) :
    validateUrl u true = .ok (reconUrl u) ∧
    (∃ tail, u = reconUrl u ++ tail ∧
      (tail = [] ∨ (∃ f, tail = '#' :: f) ∨
       ((pyUrlparse u).query = [] ∧ ∃ f, tail = '?' :: f))) ∧
    validateUrl (reconUrl u) true = .ok (reconUrl u) := by
  simp only [validHttpUrl, Bool.and_eq_true, Bool.or_eq_true,
    List.all_eq_true, decide_eq_true_eq, Bool.not_eq_true',
    List.isPrefixOf_iff_prefix, ne_eq] at h1
  obtain ⟨⟨⟨hpre, hlen⟩, hall⟩, hhost⟩ := h1
  obtain ⟨s, r, hs, hu⟩ :
      ∃ s r, (s = ("http").data ∨ s = ("https").data) ∧
        u = s ++ ':' :: '/' :: '/' :: r := by
    rcases hpre with hp | hp
    · obtain ⟨r, hr⟩ := hp
      exact ⟨("http").data, r, Or.inl rfl, by rw [← hr]; rfl⟩
    · obtain ⟨r, hr⟩ := hp
      exact ⟨("https").data, r, Or.inr rfl, by rw [← hr]; rfl⟩
  subst hu
  set N := r.takeWhile (fun c => !isNetlocEnd c) with hN
  set R2 := r.dropWhile (fun c => !isNetlocEnd c) with hR2
  obtain ⟨tf, hf1, hf2, hf3⟩ := splitFragment_decomp R2
  obtain ⟨tq, hq1, hq2, hq3⟩ := splitQuery_decomp (splitFragment R2).1
  set A := (splitFragment R2).1 with hA
  set FR := (splitFragment R2).2 with hFR
  set PA := (splitQuery A).1 with hPA
  set QY := (splitQuery A).2 with hQY
  -- membership chains
  have hr_eq : r = N ++ R2 := (List.takeWhile_append_dropWhile _ _).symm
  have hmemA : ∀ c, c ∈ A → c ∈ s ++ ':' :: '/' :: '/' :: r := by
    intro c hc
    have h1 : c ∈ A ++ tf := List.mem_append_left _ hc
    rw [← hf1] at h1
    have h2 : c ∈ r := List.dropWhile_subset _ h1
    exact List.mem_append_right _ (by simp [h2])
  have hmemPA : ∀ c, c ∈ PA → c ∈ A := by
    intro c hc
    rw [hq1]
    exact List.mem_append_left _ hc
  have hfPA : '#' ∉ PA := fun hc => hf2 (hmemPA _ hc)
  have hfQY : '#' ∉ QY := by
    intro hc
    rcases hq3 with ⟨_, hnil⟩ | htq
    · rw [hnil] at hc
      exact List.not_mem_nil _ hc
    · apply hf2
      rw [hq1, htq]
      exact List.mem_append_right _ (List.mem_cons_of_mem _ hc)
  have hsemiPA : ';' ∉ PA := fun hc => h3 (hmemA _ (hmemPA _ hc))
  have hcontains : PA.contains ';' = false := by
    rw [show PA.contains ';' = List.elem ';' PA from rfl, List.elem_eq_mem]
    exact decide_eq_false hsemiPA
  -- the parse of the input
  have hparseU : pyUrlparse (s ++ ':' :: '/' :: '/' :: r) =
      ⟨s, N, PA, [], QY, FR⟩ := by
    unfold pyUrlparse
    rw [urlsplitCore_scheme_authority s r hs]
    rw [if_neg (fun hc => by
      rw [← hR2, ← hA, ← hPA] at hc
      simp at hc
      exact hsemiPA hc.2)]
  -- stripping is the identity here
  have hns : ∀ c ∈ s ++ ':' :: '/' :: '/' :: r, isPySpace c = false :=
    fun c hc => (hall c hc).1.1.1
  have hstrip : pyStrip (s ++ ':' :: '/' :: '/' :: r) =
      s ++ ':' :: '/' :: '/' :: r := pyStrip_eq_self_of_no_space hns
  have hhost2 : ¬hostnameOf N = [] := by
    rw [hparseU] at hhost
    exact hhost
  have hne : s ++ ':' :: '/' :: '/' :: r ≠ [] := by
    rcases hs with rfl | rfl <;> simp
  -- the reconstruction
  have hrecon : reconUrl (s ++ ':' :: '/' :: '/' :: r) =
      s ++ ("://").data ++ N ++ PA ++
        (if QY ≠ [] then '?' :: QY else []) := by
    unfold reconUrl
    rw [hstrip, hparseU]
  -- (a)
  have hA_val : validateUrl (s ++ ':' :: '/' :: '/' :: r) true =
      .ok (reconUrl (s ++ ':' :: '/' :: '/' :: r)) := by
    unfold validateUrl
    rw [hstrip, hparseU, hrecon]
    rw [if_neg hne, if_neg (Nat.not_lt.mpr hlen),
      if_neg (not_not_intro hs), if_neg hhost2,
      if_neg (fun hc => hc.1 rfl)]
  -- (b)
  have hb : ∃ tail, s ++ ':' :: '/' :: '/' :: r =
      reconUrl (s ++ ':' :: '/' :: '/' :: r) ++ tail ∧
      (tail = [] ∨ (∃ f, tail = '#' :: f) ∨
       ((pyUrlparse (s ++ ':' :: '/' :: '/' :: r)).query = [] ∧
        ∃ f, tail = '?' :: f)) := by
    rw [hrecon, hparseU]
    rcases hq3 with ⟨htq, hqy⟩ | htq
    · refine ⟨tf, ?_, ?_⟩
      · rw [if_neg (by rw [hqy]; simp)]
        conv_lhs => rw [hr_eq, hf1, hq1, htq]
        simp [List.append_assoc]
      · rcases hf3 with ⟨htf, _⟩ | htf
        · exact Or.inl htf
        · exact Or.inr (Or.inl ⟨FR, htf⟩)
    · by_cases hqy : QY = []
      · refine ⟨'?' :: tf, ?_, Or.inr (Or.inr ⟨hqy, tf, rfl⟩)⟩
        rw [if_neg (by rw [hqy]; simp)]
        conv_lhs => rw [hr_eq, hf1, hq1, htq, hqy]
        simp [List.append_assoc]
      · refine ⟨tf, ?_, ?_⟩
        · rw [if_pos hqy]
          conv_lhs => rw [hr_eq, hf1, hq1, htq]
          simp [List.append_assoc]
        · rcases hf3 with ⟨htf, _⟩ | htf
          · exact Or.inl htf
          · exact Or.inr (Or.inl ⟨FR, htf⟩)
  -- (c): parse of the reconstruction
  have hNall : ∀ x ∈ N, (fun c => !isNetlocEnd c) x = true := by
    intro x hx
    rw [hN] at hx
    have h5 := List.mem_takeWhile_imp hx
    simpa using h5
  have hhead : ∀ y ∈ (PA ++ (if QY ≠ [] then '?' :: QY else [])).take 1,
      (fun c => !isNetlocEnd c) y = false := by
    intro y hy
    cases hPAc : PA with
    | cons c PA' =>
      rw [hPAc] at hy
      simp at hy
      have hR2c : r.dropWhile (fun c => !isNetlocEnd c) = c :: (PA' ++ tq ++ tf) := by
        rw [← hR2, hf1, hq1, hPAc]
        simp [List.append_assoc]
      have := dropWhile_head_false hR2c
      rw [hy]
      simpa using this
    | nil =>
      rw [hPAc] at hy
      simp at hy
      by_cases hqy : QY = []
      · rw [if_pos hqy] at hy
        simp at hy
      · rw [if_neg hqy] at hy
        simp at hy
        rw [hy]
        decide
  have hfragV : '#' ∉ PA ++ (if QY ≠ [] then '?' :: QY else []) := by
    intro hc
    rcases List.mem_append.mp hc with hc | hc
    · exact hfPA hc
    · by_cases hqy : QY = []
      · rw [if_neg (by rw [hqy]; simp)] at hc
        exact List.not_mem_nil _ hc
      · rw [if_pos hqy] at hc
        rcases List.mem_cons.mp hc with hc | hc
        · exact absurd hc (by decide)
        · exact hfQY hc
  have hsplitV : urlsplitCore (s ++ ':' :: '/' :: '/' ::
      (N ++ (PA ++ (if QY ≠ [] then '?' :: QY else [])))) =
      ⟨s, N, PA, [], QY, []⟩ := by
    rw [urlsplitCore_scheme_authority s _ hs]
    obtain ⟨ht, hd⟩ := takeWhile_append_all hNall hhead
    rw [ht, hd, splitFragment_not_mem hfragV]
    by_cases hqy : QY = []
    · rw [if_neg (by rw [hqy]; simp)]
      dsimp only
      rw [List.append_nil, splitQuery_not_mem hq2, hqy]
    · rw [if_pos hqy]
      dsimp only
      rw [splitQuery_append hq2]
  have hparseV : pyUrlparse (s ++ ':' :: '/' :: '/' ::
      (N ++ (PA ++ (if QY ≠ [] then '?' :: QY else [])))) =
      ⟨s, N, PA, [], QY, []⟩ := by
    unfold pyUrlparse
    rw [hsplitV]
    rw [if_neg (fun hc => by
      simp at hc
      exact hsemiPA hc.2)]
  have hvshape : s ++ ("://").data ++ N ++ PA ++
      (if QY ≠ [] then '?' :: QY else []) =
      s ++ ':' :: '/' :: '/' ::
        (N ++ (PA ++ (if QY ≠ [] then '?' :: QY else []))) := by
    simp [List.append_assoc]
  have hbKeep := hb
  obtain ⟨tail, htail, _⟩ := hb
  have hmemV : ∀ c ∈ reconUrl (s ++ ':' :: '/' :: '/' :: r),
      c ∈ s ++ ':' :: '/' :: '/' :: r := by
    intro c hc
    rw [htail]
    exact List.mem_append_left _ hc
  have hstripV : pyStrip (reconUrl (s ++ ':' :: '/' :: '/' :: r)) =
      reconUrl (s ++ ':' :: '/' :: '/' :: r) :=
    pyStrip_eq_self_of_no_space (fun c hc => hns c (hmemV c hc))
  have hlenV : (reconUrl (s ++ ':' :: '/' :: '/' :: r)).length ≤
      MAX_URL_LENGTH := by
    have h6 : (reconUrl (s ++ ':' :: '/' :: '/' :: r)).length ≤
        (reconUrl (s ++ ':' :: '/' :: '/' :: r) ++ tail).length := by
      simp
    rw [← htail] at h6
    exact le_trans h6 hlen
  have hneV : reconUrl (s ++ ':' :: '/' :: '/' :: r) ≠ [] := by
    rw [hrecon]
    rcases hs with rfl | rfl <;> simp
  have hC_val : validateUrl (reconUrl (s ++ ':' :: '/' :: '/' :: r)) true =
      .ok (reconUrl (s ++ ':' :: '/' :: '/' :: r)) := by
    unfold validateUrl
    rw [hstripV]
    rw [hrecon, hvshape, hparseV]
    rw [if_neg (by rw [← hvshape]; exact fun he => hneV (by rw [hrecon, he])),
      if_neg (Nat.not_lt.mpr (by rw [← hvshape, ← hrecon]; exact hlenV)),
      if_neg (not_not_intro hs), if_neg hhost2,
      if_neg (fun hc => hc.1 rfl)]
    dsimp only
    rw [hvshape]
  exact ⟨hA_val, hbKeep, hC_val⟩

/-- C5 counterexample: the claimed `scheme+host[:port]+path[?query]`
reconstruction does not describe `validate_url` on every valid absolute
http/https URL.  A URL with userinfo in its authority is returned with the
userinfo preserved, not as `scheme+host+path`; and `;parameters` in the
final path segment are dropped even though the claimed reconstruction
keeps the path (only the fragment is said to be dropped). -/
theorem validateUrl_reconstruction_counterexample :
    validateUrl (("http://user@example.com/a").data) true =
      .ok (("http://user@example.com/a").data) ∧
    (("http://user@example.com/a").data : PyStr) ≠
      ("http://example.com/a").data ∧
    validateUrl (("http://example.com/a;b").data) true =
      .ok (("http://example.com/a").data) ∧
    (("http://example.com/a").data : PyStr) ≠
      ("http://example.com/a;b").data :=
  ⟨rfl, by decide, rfl, by decide⟩

/-- Witness for C5 at a concrete URL with a query and a fragment. -/
theorem validateUrl_recon_idempotent_witness :
    validateUrl
      (("https://contoso.sharepoint.com/sites/hr?view=all#top").data) true =
      .ok (reconUrl
        (("https://contoso.sharepoint.com/sites/hr?view=all#top").data)) ∧
    reconUrl (("https://contoso.sharepoint.com/sites/hr?view=all#top").data) =
      ("https://contoso.sharepoint.com/sites/hr?view=all").data ∧
    validateUrl (reconUrl
        (("https://contoso.sharepoint.com/sites/hr?view=all#top").data))
      true =
      .ok (reconUrl
        (("https://contoso.sharepoint.com/sites/hr?view=all#top").data)) := by
  have h := validateUrl_recon_idempotent
    (("https://contoso.sharepoint.com/sites/hr?view=all#top").data)
    (by decide) (by decide) (by decide)
  exact ⟨h.1, rfl, h.2.2⟩

end SP
